import Mathlib

/- Verification of the clouddley/cli VM lifecycle subsystem.

   Shallow embedding of the Go sources:
   - cmd/vm/aws/aws.go   (create flow, security groups, AMI resolution, start)
   - cmd/vm/aws/stop.go  (stop)
   - cmd/vm/aws/list.go  (list)
   - internal/aws ssh helpers (CheckAWSKeyPair)

   Provider API calls are modelled by explicit inputs (their responses) or by a
   small explicit provider state; Go `(T, error)` results become `Except String`
   or `Option String` values carrying the exact error messages built by the
   code.  Go strings are compared and manipulated through their character
   lists, because Go's `strings.Split`, `strings.TrimSpace`, `strings.Contains`
   and string ordering act on the raw contents. -/

namespace Clouddley

/-- Character-level model of Go `strings.Split(s, sep)` for a one-character
separator: split around every occurrence of the separator. -/
def goSplitAux (sep : Char) : List Char → List Char → List (List Char)
  | [], acc => [acc.reverse]
  | c :: rest, acc =>
    if c = sep then acc.reverse :: goSplitAux sep rest []
    else goSplitAux sep rest (c :: acc)

/-- Go `strings.Split` on a one-character separator. -/
def goSplit (sep : Char) (s : List Char) : List (List Char) :=
  goSplitAux sep s []

/-- Character-level model of Go `strings.TrimSpace`: drop leading and trailing
whitespace. -/
def goTrimSpace (s : List Char) : List Char :=
  ((s.dropWhile Char.isWhitespace).reverse.dropWhile Char.isWhitespace).reverse

/-- Character-level model of Go `strings.Contains`: some suffix of `s` starts
with `sub`. -/
def goContains (s sub : List Char) : Bool :=
  s.tails.any (fun t => sub.isPrefixOf t)

/-- Instance-id parsing shared by `runStart` (cmd/vm/aws/aws.go lines 841-849)
and `runStop` (cmd/vm/aws/stop.go lines 41-49): split the `--id` flag value on
commas, trim whitespace from each part, and keep the non-empty parts in order.
-/
def parseStep (acc : List String) (part : List Char) : List String :=
  let trimmed := goTrimSpace part
  if trimmed ≠ [] then acc ++ [String.mk trimmed] else acc

def parseInstanceIDs (s : String) : List String :=
  (goSplit ',' s.data).foldl parseStep []

/-- An EC2 instance as seen in provider describe responses: the fields the CLI
reads (state name, id, type, tags, public IP, formatted launch time). -/
structure EC2Instance where
  instanceId : String
  stateName : String
  instanceType : String
  tags : List (String × String)
  publicIpAddress : Option String
  launchTime : Option String
deriving DecidableEq, Repr

/-- A reservation in a DescribeInstances response. -/
structure Reservation where
  instances : List EC2Instance
deriving DecidableEq, Repr

/-- `startInstance` (cmd/vm/aws/aws.go lines 923-959).  Inputs: the outcome of
the DescribeInstances call and the outcome the StartInstances call would have.
Output: the Go error result (`none` = success) paired with whether the
StartInstances call was issued. -/
def startInstance (describeResult : Except String (List Reservation))
    (startCallResult : Except String Unit) : Option String × Bool :=
  match describeResult with
  | .error e => (some ("failed to describe instance: " ++ e), false)
  | .ok reservations =>
    match reservations with
    | [] => (some "instance not found", false)
    | r :: _ =>
      match r.instances with
      | [] => (some "instance not found", false)
      | inst :: _ =>
        let currentState := inst.stateName
        if currentState == "running" then
          (some "instance is already running", false)
        else if currentState == "pending" then
          (some "instance is already starting", false)
        else if currentState == "terminated" || currentState == "terminating" then
          (some "instance is terminated or being terminated", false)
        else
          match startCallResult with
          | .error e => (some ("failed to start instance: " ++ e), true)
          | .ok _ => (none, true)

/-- `stopInstance` (cmd/vm/aws/stop.go lines 123-159).  Same shape as
`startInstance`: describe outcome and the hypothetical StopInstances outcome
in, Go error result and whether StopInstances was issued out. -/
def stopInstance (describeResult : Except String (List Reservation))
    (stopCallResult : Except String Unit) : Option String × Bool :=
  match describeResult with
  | .error e => (some ("failed to describe instance: " ++ e), false)
  | .ok reservations =>
    match reservations with
    | [] => (some "instance not found", false)
    | r :: _ =>
      match r.instances with
      | [] => (some "instance not found", false)
      | inst :: _ =>
        let currentState := inst.stateName
        if currentState == "stopped" then
          (some "instance is already stopped", false)
        else if currentState == "stopping" then
          (some "instance is already being stopped", false)
        else if currentState == "terminated" || currentState == "terminating" then
          (some "instance is terminated or being terminated", false)
        else
          match stopCallResult with
          | .error e => (some ("failed to stop instance: " ++ e), true)
          | .ok _ => (none, true)

/-- `CheckAWSKeyPair` (internal/aws ssh helpers): DescribeKeyPairs outcome in,
Go `(bool, error)` pair out. -/
def CheckAWSKeyPair (describeKeyPairsResult : Except String Unit) :
    Bool × Option String :=
  match describeKeyPairsResult with
  | .ok _ => (true, none)
  | .error err =>
    if goContains err.data "InvalidKeyPair.NotFound".data
        || goContains err.data "does not exist".data then
      (false, none)
    else
      (false, some ("failed to check key pair: " ++ err))

/-- An IPv4 range entry of an ingress rule (aws-sdk `types.IpRange`). -/
structure IpRange where
  cidrIp : Option String
  description : Option String
deriving DecidableEq, Repr

/-- An ingress rule (aws-sdk `types.IpPermission`, the fields the CLI reads
and writes). -/
structure IpPermission where
  ipProtocol : Option String
  fromPort : Option Int
  toPort : Option Int
  ipRanges : List IpRange
deriving DecidableEq, Repr

/-- A security group as stored by the provider. -/
structure SecurityGroup where
  groupId : String
  groupName : String
  vpcId : String
  ipPermissions : List IpPermission
deriving DecidableEq, Repr

/-- Provider-side state relevant to `createOrGetSecurityGroup`: the security
groups of the account/region, and the id the provider would assign to the next
created group. -/
structure EC2State where
  securityGroups : List SecurityGroup
  nextSGId : String
deriving DecidableEq, Repr

/-- DescribeSecurityGroups with `group-name` and `vpc-id` filters
(cmd/vm/aws/aws.go lines 538-549). -/
def describeSecurityGroupsByName (st : EC2State) (name vpcID : String) :
    List SecurityGroup :=
  st.securityGroups.filter (fun g => g.groupName == name && g.vpcId == vpcID)

/-- DescribeSecurityGroups with `GroupIds` (cmd/vm/aws/aws.go lines 608-610).
-/
def describeSecurityGroupsById (st : EC2State) (gid : String) :
    List SecurityGroup :=
  st.securityGroups.filter (fun g => g.groupId == gid)

/-- CreateSecurityGroup: the provider records a new group with no ingress
rules and returns its id. -/
def createSecurityGroup (st : EC2State) (name vpcID : String) :
    String × EC2State :=
  (st.nextSGId,
   { st with securityGroups :=
      st.securityGroups ++ [⟨st.nextSGId, name, vpcID, []⟩] })

/-- AuthorizeSecurityGroupIngress: the provider appends the given permissions
to the group with the given id. -/
def authorizeSecurityGroupIngress (st : EC2State) (gid : String)
    (perms : List IpPermission) : EC2State :=
  { st with securityGroups :=
      st.securityGroups.map (fun g =>
        if g.groupId == gid then { g with ipPermissions := g.ipPermissions ++ perms }
        else g) }

/-- One iteration of the first rule scan (cmd/vm/aws/aws.go lines 566-585):
a rule marks `port` open when its protocol is "tcp", both `FromPort` and
`ToPort` are set, `FromPort` equals `port`, and some range is exactly
`0.0.0.0/0`. -/
def ruleOpensPortStrict (port : Int) (rule : IpPermission) : Bool :=
  rule.ipProtocol == some "tcp" && rule.fromPort.isSome && rule.toPort.isSome
    && rule.fromPort == some port
    && rule.ipRanges.any (fun r => r.cidrIp == some "0.0.0.0/0")

/-- One iteration of the second rule scan (cmd/vm/aws/aws.go lines 620-637):
as above but the Go code only requires `FromPort` to be set. -/
def ruleOpensPort (port : Int) (rule : IpPermission) : Bool :=
  rule.ipProtocol == some "tcp" && rule.fromPort.isSome
    && rule.fromPort == some port
    && rule.ipRanges.any (fun r => r.cidrIp == some "0.0.0.0/0")

def hasOpenPortStrict (perms : List IpPermission) (port : Int) : Bool :=
  perms.any (ruleOpensPortStrict port)

def hasOpenPort (perms : List IpPermission) (port : Int) : Bool :=
  perms.any (ruleOpensPort port)

/-- The SSH rule the CLI authorizes (cmd/vm/aws/aws.go lines 640-652). -/
def sshRule : IpPermission :=
  ⟨some "tcp", some 22, some 22, [⟨some "0.0.0.0/0", some "SSH access"⟩]⟩

/-- The HTTP rule the CLI authorizes (cmd/vm/aws/aws.go lines 654-667). -/
def httpRule : IpPermission :=
  ⟨some "tcp", some 80, some 80, [⟨some "0.0.0.0/0", some "HTTP access"⟩]⟩

/-- The HTTPS rule the CLI authorizes (cmd/vm/aws/aws.go lines 669-682). -/
def httpsRule : IpPermission :=
  ⟨some "tcp", some 443, some 443, [⟨some "0.0.0.0/0", some "HTTPS access"⟩]⟩

/-- Result of `createOrGetSecurityGroup`: the returned group id, the provider
state afterwards, and the permissions passed to
AuthorizeSecurityGroupIngress (empty when no authorize call was made). -/
structure SGResult where
  sgId : String
  state : EC2State
  authorized : List IpPermission
deriving DecidableEq, Repr

/-- The `if needsRules` body (cmd/vm/aws/aws.go lines 602-694): re-describe
the group by id, compute which of the three baseline ports are open (second,
non-strict scan), build the missing rules in SSH, HTTP, HTTPS order, and
authorize them if any. -/
def addMissingRules (st : EC2State) (sgID : String) : SGResult :=
  let flags :=
    match describeSecurityGroupsById st sgID with
    | g :: _ =>
      (hasOpenPort g.ipPermissions 22, hasOpenPort g.ipPermissions 80,
       hasOpenPort g.ipPermissions 443)
    | [] => (false, false, false)
  let permissions :=
    (if !flags.1 then [sshRule] else [])
      ++ (if !flags.2.1 then [httpRule] else [])
      ++ (if !flags.2.2 then [httpsRule] else [])
  if permissions.length > 0 then
    ⟨sgID, authorizeSecurityGroupIngress st sgID permissions, permissions⟩
  else
    ⟨sgID, st, []⟩

/-- `createOrGetSecurityGroup` (cmd/vm/aws/aws.go lines 534-697): look the
group up by its fixed name in the VPC; if found, decide `needsRules` by the
first (strict) scan of its rules; if absent, create it (and rules are needed);
then add the missing baseline rules. -/
def createOrGetSecurityGroup (st : EC2State) (vpcID : String) : SGResult :=
  match describeSecurityGroupsByName st "clouddley-default-sg" vpcID with
  | g :: _ =>
    let hasSSH := hasOpenPortStrict g.ipPermissions 22
    let hasHTTP := hasOpenPortStrict g.ipPermissions 80
    let hasHTTPS := hasOpenPortStrict g.ipPermissions 443
    let needsRules := !hasSSH || !hasHTTP || !hasHTTPS
    if needsRules then addMissingRules st g.groupId
    else ⟨g.groupId, st, []⟩
  | [] =>
    let created := createSecurityGroup st "clouddley-default-sg" vpcID
    addMissingRules created.2 created.1

/-- After `addMissingRules` every baseline port of the group is open, rules
were only appended, and group identity/name/vpc are untouched.  `upd` is the
per-group effect of the authorize call (the identity when nothing was added).
-/
def SGPost (st : EC2State) (res : SGResult) (g : SecurityGroup) : Prop :=
  ∃ upd : SecurityGroup → SecurityGroup,
    (∀ x, (upd x).groupId = x.groupId)
    ∧ res.sgId = g.groupId
    ∧ (∀ name vpc, describeSecurityGroupsByName res.state name vpc
        = (describeSecurityGroupsByName st name vpc).map upd)
    ∧ describeSecurityGroupsById res.state g.groupId = [upd g]
    ∧ hasOpenPort (upd g).ipPermissions 22 = true
    ∧ hasOpenPort (upd g).ipPermissions 80 = true
    ∧ hasOpenPort (upd g).ipPermissions 443 = true

/-- A boot image in a DescribeImages response. -/
structure Image where
  imageId : String
  creationDate : Option String
deriving DecidableEq, Repr

/-- The primary name pattern (Ubuntu 24.04, cmd/vm/aws/aws.go line 702). -/
def noblePattern : String :=
  "ubuntu/images/hvm-ssd/ubuntu-noble-24.04-amd64-server-*"

/-- The fallback name pattern (Ubuntu 22.04, cmd/vm/aws/aws.go line 703). -/
def jammyPattern : String :=
  "ubuntu/images/hvm-ssd/ubuntu-jammy-22.04-amd64-server-*"

/-- The ordered pattern list of `getLatestUbuntuAMI`. -/
def amiPatterns : List String := [noblePattern, jammyPattern]

/-- Canonical's account id: the single trusted publisher every DescribeImages
request is restricted to (owner-id filter and Owners field). -/
def canonicalOwner : String := "099720109477"

/-- Go string comparison `<` on the characters, as used on creation-date
strings by `getLatestUbuntuAMI`. -/
def goStringLt (a b : String) : Bool :=
  decide (a.data < b.data)

/-- One iteration of the latest-image scan (cmd/vm/aws/aws.go lines 727-730):
replace the running latest when both creation dates are present and the
candidate's is greater. -/
def stepLatest (latest img : Image) : Image :=
  match img.creationDate, latest.creationDate with
  | some c, some lc => if goStringLt lc c then img else latest
  | _, _ => latest

/-- The latest-image selection of `getLatestUbuntuAMI` over a non-empty match
set (cmd/vm/aws/aws.go lines 725-731). -/
def selectLatestImage (first : Image) (rest : List Image) : Image :=
  rest.foldl stepLatest first

/-- The pattern loop of `getLatestUbuntuAMI` (cmd/vm/aws/aws.go lines
706-736): a DescribeImages failure or an empty match set moves on to the next
pattern; a non-empty match set returns its latest image's id. -/
def amiSearch
    (describeImages : String → String → Except String (List Image)) :
    List String → Except String String
  | [] => .error "no Ubuntu AMI found"
  | pat :: rest =>
    match describeImages pat canonicalOwner with
    | .error _ => amiSearch describeImages rest
    | .ok images =>
      match images with
      | [] => amiSearch describeImages rest
      | first :: others => .ok (selectLatestImage first others).imageId

/-- `getLatestUbuntuAMI` (cmd/vm/aws/aws.go lines 699-737).  The
`describeImages` argument maps a name pattern and an owner id to the provider
response of the corresponding DescribeImages call. -/
def getLatestUbuntuAMI
    (describeImages : String → String → Except String (List Image)) :
    Except String String :=
  amiSearch describeImages amiPatterns

/-- A VPC in a DescribeVpcs response. -/
structure Vpc where
  vpcId : String
deriving DecidableEq, Repr

/-- A subnet in a DescribeSubnets response. -/
structure Subnet where
  subnetId : String
deriving DecidableEq, Repr

/-- The RunInstances request fields the CLI fills in (cmd/vm/aws/aws.go lines
392-426); volume parameters are fixed constants and omitted here. -/
structure RunInstancesInput where
  imageId : String
  instanceType : String
  keyName : String
  securityGroupIds : List String
  subnetId : String
  tags : List (String × String)
deriving DecidableEq, Repr

/-- Provider responses consumed by `createInstance`: DescribeVpcs with the
`is-default` filter, DescribeSubnets filtered by `vpc-id` and
`default-for-az`, the security-group state, DescribeImages, RunInstances
(returning the new instance id), the instance-running waiter outcome, and the
post-launch describe (`Reservations[0].Instances[0]`, which AWS guarantees to
be present on success). -/
structure CreateApi where
  describeVpcsDefault : Except String (List Vpc)
  describeSubnets : String → Except String (List Subnet)
  sgState : EC2State
  describeImages : String → String → Except String (List Image)
  runInstances : RunInstancesInput → Except String String
  waiterResult : Except String Unit
  describeAfterLaunch : String → Except String EC2Instance
  region : String
  nowUnix : Nat

/-- `getDefaultVPCAndSubnet` (cmd/vm/aws/aws.go lines 488-532). -/
def getDefaultVPCAndSubnet (api : CreateApi) :
    Except String (String × String) :=
  match api.describeVpcsDefault with
  | .error e => .error ("failed to describe VPCs: " ++ e)
  | .ok vpcs =>
    match vpcs with
    | [] => .error "no default VPC found"
    | v :: _ =>
      match api.describeSubnets v.vpcId with
      | .error e => .error ("failed to describe subnets: " ++ e)
      | .ok subnets =>
        match subnets with
        | [] => .error "no default subnet found"
        | s :: _ => .ok (v.vpcId, s.subnetId)

/-- The record `createInstance` returns on success. -/
structure InstanceInfo where
  instanceID : String
  name : String
  publicIP : String
  region : String
deriving DecidableEq, Repr

/-- `createInstance` (cmd/vm/aws/aws.go lines 358-486): resolve default
VPC/subnet, resolve/patch the security group, resolve the AMI, launch, wait
for running, re-describe for the public IP.  The second component records
whether the RunInstances call was issued. -/
def createInstance (api : CreateApi) (instanceType : String) :
    Except String InstanceInfo × Bool :=
  match getDefaultVPCAndSubnet api with
  | .error e => (.error e, false)
  | .ok (vpcID, subnetID) =>
    let sg := createOrGetSecurityGroup api.sgState vpcID
    match getLatestUbuntuAMI api.describeImages with
    | .error e => (.error e, false)
    | .ok amiID =>
      let instanceName := "clouddley-vm-" ++ toString api.nowUnix
      match api.runInstances
          ⟨amiID, instanceType, "clouddley-default-key", [sg.sgId], subnetID,
           [("Name", instanceName), ("CreatedBy", "Clouddley")]⟩ with
      | .error e => (.error ("failed to create instance: " ++ e), true)
      | .ok instanceID =>
        match api.waiterResult with
        | .error e =>
          (.error ("failed waiting for instance to be running: " ++ e), true)
        | .ok _ =>
          match api.describeAfterLaunch instanceID with
          | .error e => (.error ("failed to describe instance: " ++ e), true)
          | .ok inst =>
            (.ok ⟨instanceID, instanceName,
              (match inst.publicIpAddress with
               | some ip => ip
               | none => ""), api.region⟩, true)

/-- A row of the `list` output (cmd/vm/aws/list.go lines 57-64). -/
structure ClouddleyInstance where
  instanceID : String
  name : String
  state : String
  instanceType : String
  publicIP : String
  launchTime : String
deriving DecidableEq, Repr

/-- Name-tag lookup of `listCloudleyInstances` (cmd/vm/aws/list.go lines
94-100): first tag whose key is "Name", empty string when absent. -/
def nameFromTags : List (String × String) → String
  | [] => ""
  | (k, v) :: rest => if k == "Name" then v else nameFromTags rest

/-- Conversion of one describe-response instance to a list row
(cmd/vm/aws/list.go lines 94-119); the launch-time field carries the already
formatted string. -/
def toClouddleyInstance (inst : EC2Instance) : ClouddleyInstance :=
  { instanceID := inst.instanceId
    name := nameFromTags inst.tags
    state := inst.stateName
    instanceType := inst.instanceType
    publicIP :=
      match inst.publicIpAddress with
      | some ip => ip
      | none => "N/A"
    launchTime :=
      match inst.launchTime with
      | some t => t
      | none => "N/A" }

/-- `listCloudleyInstances` (cmd/vm/aws/list.go lines 66-124) applied to the
DescribeInstances response (already filtered by tag CreatedBy=Clouddley):
skip terminated instances, convert the rest in response order. -/
def listCloudleyInstances (reservations : List Reservation) :
    List ClouddleyInstance :=
  reservations.flatMap (fun r =>
    r.instances.filterMap (fun inst =>
      if inst.stateName == "terminated" then none
      else some (toClouddleyInstance inst)))

end Clouddley

namespace Clouddley

theorem parseInstanceIDs_foldl (l : List (List Char)) (acc : List String) :
    l.foldl parseStep acc
    = acc ++ (((l.map goTrimSpace).filter (fun t => t ≠ [])).map String.mk) := by
  induction l generalizing acc with
  | nil => simp
  | cons x xs ih =>
    rw [List.foldl_cons, ih]
    by_cases h : goTrimSpace x = [] <;>
      simp [parseStep, h, List.filter_cons, List.append_assoc]

/-- C8: the parsed target list is obtained by splitting the flag value on
commas, trimming whitespace from each segment, and dropping empty segments in
order; in particular `"i-aaa, i-bbb,,  i-ccc"` parses to exactly
`["i-aaa", "i-bbb", "i-ccc"]`. -/
theorem C8_parse_instance_ids :
    (∀ s : String,
      parseInstanceIDs s
        = (((goSplit ',' s.data).map goTrimSpace).filter
            (fun t => t ≠ [])).map String.mk)
    ∧ parseInstanceIDs "i-aaa, i-bbb,,  i-ccc" = ["i-aaa", "i-bbb", "i-ccc"] := by
  constructor
  · intro s
    simpa [parseInstanceIDs] using parseInstanceIDs_foldl (goSplit ',' s.data) []
  · decide

theorem ruleOpens_of_strict {p : Int} {r : IpPermission}
    (h : ruleOpensPortStrict p r = true) : ruleOpensPort p r = true := by
  simp only [ruleOpensPortStrict, Bool.and_eq_true] at h
  simp only [ruleOpensPort, Bool.and_eq_true]
  exact ⟨⟨⟨h.1.1.1.1, h.1.1.1.2⟩, h.1.2⟩, h.2⟩

theorem hasOpenPort_of_strict {perms : List IpPermission} {p : Int}
    (h : hasOpenPortStrict perms p = true) : hasOpenPort perms p = true := by
  simp only [hasOpenPortStrict, List.any_eq_true] at h
  obtain ⟨r, hr, hop⟩ := h
  exact List.any_eq_true.mpr ⟨r, hr, ruleOpens_of_strict hop⟩

theorem describeById_authorize (st : EC2State) (gid : String)
    (perms : List IpPermission) (gid' : String) :
    describeSecurityGroupsById (authorizeSecurityGroupIngress st gid perms) gid'
    = (describeSecurityGroupsById st gid').map (fun g =>
        if g.groupId == gid
        then { g with ipPermissions := g.ipPermissions ++ perms } else g) := by
  unfold describeSecurityGroupsById authorizeSecurityGroupIngress
  rw [List.filter_map]
  congr 1
  apply List.filter_congr
  intro g _
  by_cases h : g.groupId = gid <;> simp [h]

theorem describeByName_authorize (st : EC2State) (gid : String)
    (perms : List IpPermission) (name vpcID : String) :
    describeSecurityGroupsByName (authorizeSecurityGroupIngress st gid perms)
      name vpcID
    = (describeSecurityGroupsByName st name vpcID).map (fun g =>
        if g.groupId == gid
        then { g with ipPermissions := g.ipPermissions ++ perms } else g) := by
  unfold describeSecurityGroupsByName authorizeSecurityGroupIngress
  rw [List.filter_map]
  congr 1
  apply List.filter_congr
  intro g _
  by_cases h : g.groupId = gid <;> simp [h]

theorem filter_id_eq_of_nodup (gs : List SecurityGroup) (g : SecurityGroup)
    (hmem : g ∈ gs) (hnd : (gs.map (fun x => x.groupId)).Nodup) :
    gs.filter (fun x => x.groupId == g.groupId) = [g] := by
  induction gs with
  | nil => cases hmem
  | cons x xs ih =>
    simp only [List.map_cons, List.nodup_cons, List.mem_map] at hnd
    rcases List.mem_cons.mp hmem with heq | hmem'
    · subst heq
      have hrest : xs.filter (fun y => y.groupId == g.groupId) = [] := by
        apply List.filter_eq_nil_iff.mpr
        intro y hy
        simp only [beq_iff_eq]
        intro hc
        exact hnd.1 ⟨y, hy, hc⟩
      simp [List.filter_cons, hrest]
    · have hxg : (x.groupId == g.groupId) = false := by
        simp only [beq_eq_false_iff_ne, ne_eq]
        intro hc
        exact hnd.1 ⟨g, hmem', hc.symm⟩
      simp only [List.filter_cons, hxg, Bool.false_eq_true, if_false]
      exact ih hmem' hnd.2

theorem authorize_ids (st : EC2State) (gid : String)
    (perms : List IpPermission) :
    (authorizeSecurityGroupIngress st gid perms).securityGroups.map
        (fun x => x.groupId)
    = st.securityGroups.map (fun x => x.groupId) := by
  unfold authorizeSecurityGroupIngress
  rw [List.map_map]
  apply List.map_congr_left
  intro g _
  by_cases h : g.groupId = gid <;> simp [h]

/-- C1: a rule counts toward one of the three baseline requirements only if
its protocol is TCP, its (from-)port is the requirement's port, and some
source CIDR is exactly 0.0.0.0/0; and when the group exists with only the SSH
rule in this exact shape, the resolver authorizes exactly the HTTP and HTTPS
rules, keeps the SSH rule unchanged, and returns the existing group's id. -/
theorem C1_sg_rule_satisfaction :
    (∀ (rule : IpPermission) (port : Int),
      (ruleOpensPortStrict port rule = true ∨ ruleOpensPort port rule = true) →
      rule.ipProtocol = some "tcp" ∧ rule.fromPort = some port
        ∧ ∃ r ∈ rule.ipRanges, r.cidrIp = some "0.0.0.0/0")
    ∧ (∀ (st : EC2State) (vpcID : String) (g : SecurityGroup)
        (rest : List SecurityGroup) (p : IpPermission),
        describeSecurityGroupsByName st "clouddley-default-sg" vpcID
          = g :: rest →
        describeSecurityGroupsById st g.groupId = [g] →
        g.ipPermissions = [p] →
        p.ipProtocol = some "tcp" → p.fromPort = some 22 → p.toPort = some 22 →
        p.ipRanges.any (fun r => r.cidrIp == some "0.0.0.0/0") = true →
        (createOrGetSecurityGroup st vpcID).sgId = g.groupId
        ∧ (createOrGetSecurityGroup st vpcID).authorized
            = [httpRule, httpsRule]
        ∧ describeSecurityGroupsById (createOrGetSecurityGroup st vpcID).state
              g.groupId
            = [{ g with ipPermissions := [p, httpRule, httpsRule] }]) := by
  constructor
  · intro rule port h
    have h' : ruleOpensPort port rule = true := by
      rcases h with h | h
      · exact ruleOpens_of_strict h
      · exact h
    simp only [ruleOpensPort, Bool.and_eq_true, beq_iff_eq, List.any_eq_true]
      at h'
    exact ⟨h'.1.1.1, h'.1.2, h'.2⟩
  · intro st vpcID g rest p hname hid hperms hproto hfrom hto hrange
    have hstrict22 : ruleOpensPortStrict 22 p = true := by
      simp [ruleOpensPortStrict, hproto, hfrom, hto, hrange]
    have hopen22 : ruleOpensPort 22 p = true := ruleOpens_of_strict hstrict22
    have hopen80 : ruleOpensPort 80 p = false := by
      simp [ruleOpensPort, hfrom]
    have hopen443 : ruleOpensPort 443 p = false := by
      simp [ruleOpensPort, hfrom]
    have hstrict80 : ruleOpensPortStrict 80 p = false := by
      simp [ruleOpensPortStrict, hfrom]
    have hres : createOrGetSecurityGroup st vpcID
        = addMissingRules st g.groupId := by
      unfold createOrGetSecurityGroup
      rw [hname]
      simp [hasOpenPortStrict, hperms, hstrict80]
    have hadd : addMissingRules st g.groupId
        = ⟨g.groupId,
           authorizeSecurityGroupIngress st g.groupId [httpRule, httpsRule],
           [httpRule, httpsRule]⟩ := by
      unfold addMissingRules
      rw [hid]
      simp [hasOpenPort, hperms, hopen22, hopen80, hopen443]
    rw [hres, hadd]
    refine ⟨rfl, rfl, ?_⟩
    rw [describeById_authorize, hid]
    simp [hperms]

theorem C1_sg_rule_satisfaction_witness :
    (createOrGetSecurityGroup
        ⟨[⟨"sg-1", "clouddley-default-sg", "vpc-1", [sshRule]⟩], "sg-new"⟩
        "vpc-1").authorized = [httpRule, httpsRule] :=
  ((C1_sg_rule_satisfaction.2
    ⟨[⟨"sg-1", "clouddley-default-sg", "vpc-1", [sshRule]⟩], "sg-new"⟩
    "vpc-1" ⟨"sg-1", "clouddley-default-sg", "vpc-1", [sshRule]⟩ [] sshRule
    (by decide) (by decide) rfl rfl rfl rfl (by decide)).2).1

theorem createOrGet_stable (st : EC2State) (vpcID : String)
    (g : SecurityGroup) (rest : List SecurityGroup)
    (hname : describeSecurityGroupsByName st "clouddley-default-sg" vpcID
      = g :: rest)
    (hid : describeSecurityGroupsById st g.groupId = [g])
    (h22 : hasOpenPort g.ipPermissions 22 = true)
    (h80 : hasOpenPort g.ipPermissions 80 = true)
    (h443 : hasOpenPort g.ipPermissions 443 = true) :
    createOrGetSecurityGroup st vpcID = ⟨g.groupId, st, []⟩ := by
  unfold createOrGetSecurityGroup
  rw [hname]
  dsimp only
  by_cases hn : (!hasOpenPortStrict g.ipPermissions 22
      || !hasOpenPortStrict g.ipPermissions 80
      || !hasOpenPortStrict g.ipPermissions 443) = true
  · rw [if_pos hn]
    unfold addMissingRules
    rw [hid]
    simp [h22, h80, h443]
  · rw [if_neg hn]

theorem hasOpenPort_append (a b : List IpPermission) (p : Int) :
    hasOpenPort (a ++ b) p = (hasOpenPort a p || hasOpenPort b p) :=
  List.any_append

theorem sgpost_id (st : EC2State) (g : SecurityGroup)
    (hid : describeSecurityGroupsById st g.groupId = [g])
    (h1 : hasOpenPort g.ipPermissions 22 = true)
    (h2 : hasOpenPort g.ipPermissions 80 = true)
    (h3 : hasOpenPort g.ipPermissions 443 = true) :
    SGPost st ⟨g.groupId, st, []⟩ g :=
  ⟨id, fun _ => rfl, rfl, fun name vpc => by simp, by simpa using hid,
    by simpa using h1, by simpa using h2, by simpa using h3⟩

theorem sgpost_authorize (st : EC2State) (g : SecurityGroup)
    (P : List IpPermission)
    (hid : describeSecurityGroupsById st g.groupId = [g])
    (h22 : hasOpenPort (g.ipPermissions ++ P) 22 = true)
    (h80 : hasOpenPort (g.ipPermissions ++ P) 80 = true)
    (h443 : hasOpenPort (g.ipPermissions ++ P) 443 = true) :
    SGPost st ⟨g.groupId, authorizeSecurityGroupIngress st g.groupId P, P⟩ g := by
  refine ⟨fun x => if x.groupId == g.groupId
      then { x with ipPermissions := x.ipPermissions ++ P } else x,
    ?_, rfl, ?_, ?_, ?_, ?_, ?_⟩
  · intro x
    by_cases h : x.groupId = g.groupId <;> simp [h]
  · intro name vpc
    exact describeByName_authorize st g.groupId P name vpc
  · rw [describeById_authorize, hid]
    simp
  · simpa using h22
  · simpa using h80
  · simpa using h443

theorem perms_cover (perms : List IpPermission) :
    (hasOpenPort (perms ++ ((if !hasOpenPort perms 22 then [sshRule] else [])
        ++ (if !hasOpenPort perms 80 then [httpRule] else [])
        ++ (if !hasOpenPort perms 443 then [httpsRule] else []))) 22 = true)
    ∧ (hasOpenPort (perms ++ ((if !hasOpenPort perms 22 then [sshRule] else [])
        ++ (if !hasOpenPort perms 80 then [httpRule] else [])
        ++ (if !hasOpenPort perms 443 then [httpsRule] else []))) 80 = true)
    ∧ (hasOpenPort (perms ++ ((if !hasOpenPort perms 22 then [sshRule] else [])
        ++ (if !hasOpenPort perms 80 then [httpRule] else [])
        ++ (if !hasOpenPort perms 443 then [httpsRule] else []))) 443
        = true) := by
  by_cases h1 : hasOpenPort perms 22 = true <;>
    by_cases h2 : hasOpenPort perms 80 = true <;>
      by_cases h3 : hasOpenPort perms 443 = true <;>
        simp only [Bool.not_eq_true] at h1 h2 h3 <;>
          refine ⟨?_, ?_, ?_⟩ <;>
            simp [hasOpenPort_append, h1, h2, h3] <;> decide

theorem addMissingRules_post (st : EC2State) (g : SecurityGroup)
    (hid : describeSecurityGroupsById st g.groupId = [g]) :
    SGPost st (addMissingRules st g.groupId) g := by
  have hc := perms_cover g.ipPermissions
  unfold addMissingRules
  rw [hid]
  dsimp only
  by_cases hlen : ((if !hasOpenPort g.ipPermissions 22 then [sshRule] else [])
      ++ (if !hasOpenPort g.ipPermissions 80 then [httpRule] else [])
      ++ (if !hasOpenPort g.ipPermissions 443 then [httpsRule] else [])).length
      > 0
  · rw [if_pos hlen]
    exact sgpost_authorize st g _ hid hc.1 hc.2.1 hc.2.2
  · rw [if_neg hlen]
    have hP : ((if !hasOpenPort g.ipPermissions 22 then [sshRule] else [])
        ++ (if !hasOpenPort g.ipPermissions 80 then [httpRule] else [])
        ++ (if !hasOpenPort g.ipPermissions 443 then [httpsRule] else []))
        = [] := by
      have h0 : ((if !hasOpenPort g.ipPermissions 22 then [sshRule] else [])
          ++ (if !hasOpenPort g.ipPermissions 80 then [httpRule] else [])
          ++ (if !hasOpenPort g.ipPermissions 443 then [httpsRule] else [])).length
          = 0 := Nat.eq_zero_of_not_pos hlen
      exact List.length_eq_zero.mp h0
    have h1 : hasOpenPort g.ipPermissions 22 = true := by
      by_contra hcon
      simp only [Bool.not_eq_true] at hcon
      simp [hcon] at hP
    have h2 : hasOpenPort g.ipPermissions 80 = true := by
      by_contra hcon
      simp only [Bool.not_eq_true] at hcon
      simp [hcon] at hP
    have h3 : hasOpenPort g.ipPermissions 443 = true := by
      by_contra hcon
      simp only [Bool.not_eq_true] at hcon
      simp [hcon] at hP
    exact sgpost_id st g hid h1 h2 h3

theorem createOrGet_post (st : EC2State) (vpcID : String)
    (hnd : (st.securityGroups.map (fun x => x.groupId)).Nodup)
    (hfresh : ∀ x ∈ st.securityGroups, x.groupId ≠ st.nextSGId) :
    ∃ g1 rest1,
      describeSecurityGroupsByName (createOrGetSecurityGroup st vpcID).state
          "clouddley-default-sg" vpcID = g1 :: rest1
      ∧ g1.groupId = (createOrGetSecurityGroup st vpcID).sgId
      ∧ describeSecurityGroupsById (createOrGetSecurityGroup st vpcID).state
          g1.groupId = [g1]
      ∧ hasOpenPort g1.ipPermissions 22 = true
      ∧ hasOpenPort g1.ipPermissions 80 = true
      ∧ hasOpenPort g1.ipPermissions 443 = true := by
  rcases hn : describeSecurityGroupsByName st "clouddley-default-sg" vpcID
    with _ | ⟨g, rest⟩
  · have hres : createOrGetSecurityGroup st vpcID
        = addMissingRules
            ⟨st.securityGroups
              ++ [⟨st.nextSGId, "clouddley-default-sg", vpcID, []⟩],
             st.nextSGId⟩
            st.nextSGId := by
      unfold createOrGetSecurityGroup
      rw [hn]
      rfl
    have hid' : describeSecurityGroupsById
        ⟨st.securityGroups
          ++ [⟨st.nextSGId, "clouddley-default-sg", vpcID, []⟩], st.nextSGId⟩
        st.nextSGId
        = [⟨st.nextSGId, "clouddley-default-sg", vpcID, []⟩] := by
      unfold describeSecurityGroupsById
      rw [List.filter_append]
      rw [List.filter_eq_nil_iff.mpr]
      · simp
      · intro y hy
        simp only [beq_iff_eq]
        exact hfresh y hy
    have hbn' : describeSecurityGroupsByName
        ⟨st.securityGroups
          ++ [⟨st.nextSGId, "clouddley-default-sg", vpcID, []⟩], st.nextSGId⟩
        "clouddley-default-sg" vpcID
        = [⟨st.nextSGId, "clouddley-default-sg", vpcID, []⟩] := by
      unfold describeSecurityGroupsByName at hn ⊢
      rw [List.filter_append, hn]
      simp
    obtain ⟨upd, hupd, hsg, hbn, hbi, ho1, ho2, ho3⟩ :=
      addMissingRules_post
        ⟨st.securityGroups
          ++ [⟨st.nextSGId, "clouddley-default-sg", vpcID, []⟩], st.nextSGId⟩
        ⟨st.nextSGId, "clouddley-default-sg", vpcID, []⟩ hid'
    rw [hres]
    refine ⟨upd ⟨st.nextSGId, "clouddley-default-sg", vpcID, []⟩, [],
      ?_, ?_, ?_, ho1, ho2, ho3⟩
    · rw [hbn "clouddley-default-sg" vpcID, hbn']
      rfl
    · rw [hupd]
      exact hsg.symm
    · rw [hupd]
      exact hbi
  · have hmem : g ∈ st.securityGroups := by
      have hg : g ∈ describeSecurityGroupsByName st "clouddley-default-sg"
          vpcID := by
        rw [hn]
        exact List.mem_cons_self _ _
      unfold describeSecurityGroupsByName at hg
      exact List.mem_of_mem_filter hg
    have hid : describeSecurityGroupsById st g.groupId = [g] := by
      unfold describeSecurityGroupsById
      exact filter_id_eq_of_nodup _ g hmem hnd
    by_cases hneed : (!hasOpenPortStrict g.ipPermissions 22
        || !hasOpenPortStrict g.ipPermissions 80
        || !hasOpenPortStrict g.ipPermissions 443) = true
    · have hres : createOrGetSecurityGroup st vpcID
          = addMissingRules st g.groupId := by
        unfold createOrGetSecurityGroup
        rw [hn]
        dsimp only
        rw [if_pos hneed]
      obtain ⟨upd, hupd, hsg, hbn, hbi, ho1, ho2, ho3⟩ :=
        addMissingRules_post st g hid
      rw [hres]
      refine ⟨upd g, rest.map upd, ?_, ?_, ?_, ho1, ho2, ho3⟩
      · rw [hbn "clouddley-default-sg" vpcID, hn]
        rfl
      · rw [hupd]
        exact hsg.symm
      · rw [hupd]
        exact hbi
    · have hstrict : (hasOpenPortStrict g.ipPermissions 22 = true
          ∧ hasOpenPortStrict g.ipPermissions 80 = true)
          ∧ hasOpenPortStrict g.ipPermissions 443 = true := by
        simpa using hneed
      have hres : createOrGetSecurityGroup st vpcID
          = ⟨g.groupId, st, []⟩ := by
        unfold createOrGetSecurityGroup
        rw [hn]
        dsimp only
        rw [if_neg hneed]
      rw [hres]
      exact ⟨g, rest, hn, rfl, hid, hasOpenPort_of_strict hstrict.1.1,
        hasOpenPort_of_strict hstrict.1.2, hasOpenPort_of_strict hstrict.2⟩

/-- C2: invoking the resolver twice against the same VPC (second time on the
provider state left by the first run) returns the same group id, performs no
rule authorization in the second run, and leaves the provider state fixed. -/
theorem C2_resolver_idempotent (st : EC2State) (vpcID : String)
    (hnd : (st.securityGroups.map (fun x => x.groupId)).Nodup)
    (hfresh : ∀ x ∈ st.securityGroups, x.groupId ≠ st.nextSGId) :
    (createOrGetSecurityGroup
        (createOrGetSecurityGroup st vpcID).state vpcID).sgId
      = (createOrGetSecurityGroup st vpcID).sgId
    ∧ (createOrGetSecurityGroup
        (createOrGetSecurityGroup st vpcID).state vpcID).authorized = []
    ∧ (createOrGetSecurityGroup
        (createOrGetSecurityGroup st vpcID).state vpcID).state
      = (createOrGetSecurityGroup st vpcID).state := by
  obtain ⟨g1, rest1, hbn, hgid, hbi, h1, h2, h3⟩ :=
    createOrGet_post st vpcID hnd hfresh
  have hstable := createOrGet_stable (createOrGetSecurityGroup st vpcID).state
    vpcID g1 rest1 hbn hbi h1 h2 h3
  rw [hstable]
  exact ⟨hgid, rfl, rfl⟩

theorem C2_resolver_idempotent_witness :
    (createOrGetSecurityGroup
        (createOrGetSecurityGroup ⟨[], "sg-0"⟩ "vpc-1").state "vpc-1").sgId
      = (createOrGetSecurityGroup ⟨[], "sg-0"⟩ "vpc-1").sgId
    ∧ (createOrGetSecurityGroup
        (createOrGetSecurityGroup ⟨[], "sg-0"⟩ "vpc-1").state "vpc-1").authorized
      = []
    ∧ (createOrGetSecurityGroup
        (createOrGetSecurityGroup ⟨[], "sg-0"⟩ "vpc-1").state "vpc-1").state
      = (createOrGetSecurityGroup ⟨[], "sg-0"⟩ "vpc-1").state :=
  C2_resolver_idempotent ⟨[], "sg-0"⟩ "vpc-1" (by decide) (by decide)

/-- C3: `startInstance` issues the StartInstances call and succeeds when the
freshly described state is `stopping` or `stopped` and the call succeeds;
for `running`, `pending`, `terminated`, `terminating` it returns the specific
rejection message and never issues the call. -/
theorem C3_start_state_gating (tail : List Reservation)
    (itail : List EC2Instance) (inst : EC2Instance)
    (call : Except String Unit) :
    ((inst.stateName = "stopping" ∨ inst.stateName = "stopped") →
      (startInstance (.ok (⟨inst :: itail⟩ :: tail)) call).2 = true
      ∧ startInstance (.ok (⟨inst :: itail⟩ :: tail)) (.ok ()) = (none, true))
    ∧ (inst.stateName = "running" →
      startInstance (.ok (⟨inst :: itail⟩ :: tail)) call
        = (some "instance is already running", false))
    ∧ (inst.stateName = "pending" →
      startInstance (.ok (⟨inst :: itail⟩ :: tail)) call
        = (some "instance is already starting", false))
    ∧ (inst.stateName = "terminated" ∨ inst.stateName = "terminating" →
      startInstance (.ok (⟨inst :: itail⟩ :: tail)) call
        = (some "instance is terminated or being terminated", false)) := by
  refine ⟨?_, ?_, ?_, ?_⟩
  · rintro (h | h) <;>
      · constructor
        · cases call <;> simp [startInstance, h]
        · simp [startInstance, h]
  · intro h
    simp [startInstance, h]
  · intro h
    simp [startInstance, h]
  · rintro (h | h) <;> simp [startInstance, h]

theorem C3_start_state_gating_witness :
    (startInstance
        (.ok [⟨[⟨"i-1", "stopping", "t3.micro", [], none, none⟩]⟩])
        (.ok ())).2 = true :=
  ((C3_start_state_gating [] [] ⟨"i-1", "stopping", "t3.micro", [], none, none⟩
    (.ok ())).1 (Or.inl rfl)).1

/-- C4: `stopInstance` on an instance whose freshly described state is
`stopped` returns the error "instance is already stopped" (which contains
"already stopped") and does not issue the StopInstances call. -/
theorem C4_stop_already_stopped (tail : List Reservation)
    (itail : List EC2Instance) (inst : EC2Instance)
    (call : Except String Unit) (h : inst.stateName = "stopped") :
    stopInstance (.ok (⟨inst :: itail⟩ :: tail)) call
      = (some "instance is already stopped", false)
    ∧ goContains "instance is already stopped".data "already stopped".data
        = true := by
  constructor
  · simp [stopInstance, h]
  · decide

theorem C4_stop_already_stopped_witness :
    stopInstance
        (.ok [⟨[⟨"i-1", "stopped", "t3.micro", [], none, none⟩]⟩])
        (.ok ())
      = (some "instance is already stopped", false) :=
  (C4_stop_already_stopped [] [] ⟨"i-1", "stopped", "t3.micro", [], none, none⟩
    (.ok ()) rfl).1

/-- C10: the remote key-pair existence check returns `(false, nil)` when the
DescribeKeyPairs error mentions "InvalidKeyPair.NotFound" or "does not exist",
returns `(true, nil)` on success, and wraps any other error; absence of the
key pair is never reported as a failure. -/
theorem C10_check_key_pair (e : String) :
    (CheckAWSKeyPair (.ok ()) = (true, none))
    ∧ ((goContains e.data "InvalidKeyPair.NotFound".data = true
          ∨ goContains e.data "does not exist".data = true) →
        CheckAWSKeyPair (.error e) = (false, none))
    ∧ (goContains e.data "InvalidKeyPair.NotFound".data = false →
        goContains e.data "does not exist".data = false →
        CheckAWSKeyPair (.error e)
          = (false, some ("failed to check key pair: " ++ e))) := by
  refine ⟨rfl, ?_, ?_⟩
  · rintro (h | h) <;> simp [CheckAWSKeyPair, h]
  · intro h1 h2
    simp [CheckAWSKeyPair, h1, h2]

theorem C10_check_key_pair_witness :
    CheckAWSKeyPair (.error "api error: InvalidKeyPair.NotFound: nope")
      = (false, none) :=
  ((C10_check_key_pair "api error: InvalidKeyPair.NotFound: nope").2.1
    (Or.inl (by decide)))

theorem goStringLt_irrefl (a : String) : goStringLt a a = false := by
  simp [goStringLt]

theorem goStringLt_asymm {a b : String} (h : goStringLt a b = true) :
    goStringLt b a = false := by
  simp only [goStringLt, decide_eq_true_eq] at h
  simp only [goStringLt, decide_eq_false_iff_not]
  exact lt_asymm h

theorem goStringLt_neg_trans {a b c : String} (h1 : goStringLt a b = false)
    (h2 : goStringLt b c = false) : goStringLt a c = false := by
  simp only [goStringLt, decide_eq_false_iff_not] at h1 h2 ⊢
  intro h3
  exact h1 (lt_of_lt_of_le h3 (not_lt.mp h2))

theorem stepLatest_cases (latest img : Image) :
    stepLatest latest img = latest ∨ stepLatest latest img = img := by
  unfold stepLatest
  rcases img.creationDate with _ | c <;> rcases latest.creationDate with _ | lc
  · exact Or.inl rfl
  · exact Or.inl rfl
  · exact Or.inl rfl
  · by_cases h : goStringLt lc c = true <;> simp [h]

theorem stepLatest_isSome {latest img : Image}
    (h : latest.creationDate.isSome = true) :
    (stepLatest latest img).creationDate.isSome = true := by
  unfold stepLatest
  rcases hi : img.creationDate with _ | c <;>
    rcases hl : latest.creationDate with _ | lc <;>
      simp_all
  split <;> simp_all

theorem stepLatest_ge {latest img : Image} {lc c : String}
    (hl : latest.creationDate = some lc) (hi : img.creationDate = some c) :
    ∀ ca, (stepLatest latest img).creationDate = some ca →
      goStringLt ca lc = false ∧ goStringLt ca c = false := by
  intro ca hca
  unfold stepLatest at hca
  rw [hl, hi] at hca
  dsimp only at hca
  by_cases hb : goStringLt lc c = true
  · rw [if_pos hb] at hca
    rw [hi] at hca
    injection hca with hca
    subst hca
    exact ⟨goStringLt_asymm hb, goStringLt_irrefl c⟩
  · rw [if_neg hb] at hca
    rw [hl] at hca
    injection hca with hca
    subst hca
    exact ⟨goStringLt_irrefl lc, Bool.not_eq_true _ ▸ Bool.of_not_eq_true hb⟩

theorem foldl_stepLatest_mem (rest : List Image) (first : Image) :
    rest.foldl stepLatest first ∈ first :: rest := by
  induction rest generalizing first with
  | nil => simp
  | cons x xs ih =>
    rw [List.foldl_cons]
    rcases stepLatest_cases first x with h | h
    · rw [h]
      have hm := ih first
      simp only [List.mem_cons] at hm ⊢
      tauto
    · rw [h]
      have hm := ih x
      simp only [List.mem_cons] at hm ⊢
      tauto

theorem foldl_stepLatest_ge (rest : List Image) (first : Image)
    (hall : ∀ img ∈ first :: rest, img.creationDate.isSome = true) :
    ∀ img ∈ first :: rest, ∀ c ca, img.creationDate = some c →
      (rest.foldl stepLatest first).creationDate = some ca →
      goStringLt ca c = false := by
  induction rest generalizing first with
  | nil =>
    intro img hm c ca hc hca
    simp only [List.mem_cons, List.not_mem_nil, or_false] at hm
    subst hm
    rw [List.foldl_nil] at hca
    rw [hc] at hca
    injection hca with hca
    subst hca
    exact goStringLt_irrefl c
  | cons x xs ih =>
    intro img hm c ca hc hca
    rw [List.foldl_cons] at hca
    obtain ⟨cf, hcf⟩ := Option.isSome_iff_exists.mp
      (hall first (List.mem_cons_self _ _))
    obtain ⟨cx, hcx⟩ := Option.isSome_iff_exists.mp
      (hall x (List.mem_cons_of_mem _ (List.mem_cons_self _ _)))
    have hall' : ∀ i ∈ stepLatest first x :: xs, i.creationDate.isSome = true := by
      intro i hi
      rcases List.mem_cons.mp hi with hh | hh
      · rw [hh]
        exact stepLatest_isSome (hcf ▸ rfl)
      · exact hall i (List.mem_cons_of_mem _ (List.mem_cons_of_mem _ hh))
    obtain ⟨cs, hcs⟩ := Option.isSome_iff_exists.mp
      (hall' (stepLatest first x) (List.mem_cons_self _ _))
    have hstep := stepLatest_ge hcf hcx cs hcs
    have hres := ih (stepLatest first x) hall' (stepLatest first x)
      (List.mem_cons_self _ _) cs ca hcs hca
    rcases List.mem_cons.mp hm with hh | hh
    · subst hh
      rw [hc] at hcf
      injection hcf with hcf
      subst hcf
      exact goStringLt_neg_trans hres hstep.1
    · rcases List.mem_cons.mp hh with hh2 | hh2
      · subst hh2
        rw [hc] at hcx
        injection hcx with hcx
        subst hcx
        exact goStringLt_neg_trans hres hstep.2
      · exact ih (stepLatest first x) hall' img
          (List.mem_cons_of_mem _ hh2) c ca hc hca

theorem amiSearch_congr
    (f h : String → String → Except String (List Image))
    (l : List String) (hagree : ∀ pat, f pat canonicalOwner = h pat canonicalOwner) :
    amiSearch f l = amiSearch h l := by
  induction l with
  | nil => rfl
  | cons pat rest ih =>
    unfold amiSearch
    rw [hagree pat]
    rcases h pat canonicalOwner with e | images
    · exact ih
    · rcases images with _ | ⟨first, others⟩
      · exact ih
      · rfl

theorem amiSearch_all_bad
    (f : String → String → Except String (List Image)) (l : List String)
    (hbad : ∀ pat ∈ l, f pat canonicalOwner = .ok []
      ∨ ∃ e, f pat canonicalOwner = .error e) :
    amiSearch f l = .error "no Ubuntu AMI found" := by
  induction l with
  | nil => rfl
  | cons pat rest ih =>
    unfold amiSearch
    rcases hbad pat (List.mem_cons_self _ _) with hh | ⟨e, hh⟩ <;>
      rw [hh] <;>
        exact ih (fun q hq => hbad q (List.mem_cons_of_mem _ hq))

/-- C5: the image resolver depends only on queries restricted to the trusted
publisher, tries the 24.04 pattern before the 22.04 pattern, returns on the
first non-empty match set the image selected by the latest-creation-date
scan, that selection is a member with no strictly greater timestamp among
dated images (in particular of two dated images T1 < T2 it keeps the T2
image), and with no match anywhere it fails with the no-image-found error. -/
theorem C5_image_resolver :
    (∀ f h : String → String → Except String (List Image),
      (∀ pat, f pat canonicalOwner = h pat canonicalOwner) →
      getLatestUbuntuAMI f = getLatestUbuntuAMI h)
    ∧ (∀ (f : String → String → Except String (List Image))
        (first : Image) (others : List Image),
        f noblePattern canonicalOwner = .ok (first :: others) →
        getLatestUbuntuAMI f = .ok (selectLatestImage first others).imageId)
    ∧ (∀ (f : String → String → Except String (List Image))
        (first : Image) (others : List Image),
        (f noblePattern canonicalOwner = .ok []
          ∨ ∃ e, f noblePattern canonicalOwner = .error e) →
        f jammyPattern canonicalOwner = .ok (first :: others) →
        getLatestUbuntuAMI f = .ok (selectLatestImage first others).imageId)
    ∧ (∀ (first : Image) (others : List Image),
        (∀ img ∈ first :: others, img.creationDate.isSome = true) →
        selectLatestImage first others ∈ first :: others
        ∧ (∀ img ∈ first :: others, ∀ c ca, img.creationDate = some c →
            (selectLatestImage first others).creationDate = some ca →
            goStringLt ca c = false))
    ∧ (∀ (i1 i2 : Image) (t1 t2 : String),
        i1.creationDate = some t1 → i2.creationDate = some t2 →
        goStringLt t1 t2 = true → selectLatestImage i1 [i2] = i2)
    ∧ (∀ f : String → String → Except String (List Image),
        (∀ pat ∈ amiPatterns, f pat canonicalOwner = .ok []
          ∨ ∃ e, f pat canonicalOwner = .error e) →
        getLatestUbuntuAMI f = .error "no Ubuntu AMI found") := by
  refine ⟨?_, ?_, ?_, ?_, ?_, ?_⟩
  · intro f h hagree
    exact amiSearch_congr f h amiPatterns hagree
  · intro f first others hn
    unfold getLatestUbuntuAMI amiPatterns amiSearch
    rw [hn]
  · intro f first others hnoble hjammy
    unfold getLatestUbuntuAMI amiPatterns amiSearch
    rcases hnoble with hh | ⟨e, hh⟩ <;>
      · rw [hh]
        unfold amiSearch
        rw [hjammy]
  · intro first others hall
    exact ⟨foldl_stepLatest_mem others first,
      foldl_stepLatest_ge others first hall⟩
  · intro i1 i2 t1 t2 h1 h2 hlt
    unfold selectLatestImage
    rw [List.foldl_cons, List.foldl_nil]
    unfold stepLatest
    rw [h1, h2]
    dsimp only
    rw [hlt]
    rfl
  · intro f hbad
    exact amiSearch_all_bad f amiPatterns hbad

theorem C5_image_resolver_witness :
    getLatestUbuntuAMI (fun pat _ =>
      if pat == noblePattern
      then Except.ok [⟨"ami-1", some "2024-01-01"⟩, ⟨"ami-2", some "2024-06-01"⟩]
      else Except.ok [])
      = .ok (selectLatestImage ⟨"ami-1", some "2024-01-01"⟩
          [⟨"ami-2", some "2024-06-01"⟩]).imageId :=
  C5_image_resolver.2.1 _ ⟨"ami-1", some "2024-01-01"⟩
    [⟨"ami-2", some "2024-06-01"⟩] (by rfl)

/-- C6 counterexample: when every DescribeImages call fails, the resolver
does not surface the API failure; it reports the no-image-found error, whose
text does not mention the API error. -/
theorem C6_counterexample :
    getLatestUbuntuAMI (fun _ _ => .error "RequestLimitExceeded")
      = .error "no Ubuntu AMI found"
    ∧ goContains "no Ubuntu AMI found".data "RequestLimitExceeded".data
        = false := by
  constructor
  · rfl
  · decide

/-- C6 (amended): inside the image resolver a DescribeImages failure is
swallowed — the loop continues with the next pattern as if the pattern had no
matches — and when every DescribeImages call fails the resolver returns the
no-image-found error instead of the API failure. -/
theorem C6_describe_images_failures_swallowed :
    (∀ (f : String → String → Except String (List Image)) (e : String),
      f noblePattern canonicalOwner = .error e →
      getLatestUbuntuAMI f = amiSearch f [jammyPattern])
    ∧ (∀ f : String → String → Except String (List Image),
        (∀ pat, ∃ e, f pat canonicalOwner = .error e) →
        getLatestUbuntuAMI f = .error "no Ubuntu AMI found") := by
  constructor
  · intro f e hh
    unfold getLatestUbuntuAMI amiPatterns amiSearch
    rw [hh]
    rfl
  · intro f hbad
    exact amiSearch_all_bad f amiPatterns
      (fun pat _ => Or.inr (hbad pat))

theorem C6_describe_images_failures_swallowed_witness :
    getLatestUbuntuAMI (fun _ _ => Except.error "RequestLimitExceeded")
      = .error "no Ubuntu AMI found" :=
  C6_describe_images_failures_swallowed.2 _
    (fun _ => ⟨"RequestLimitExceeded", rfl⟩)

/-- C7: with no default VPC the create flow fails with the "no default VPC
found" error and the RunInstances launch call is never issued. -/
theorem C7_no_default_vpc (api : CreateApi) (instanceType : String)
    (h : api.describeVpcsDefault = .ok []) :
    getDefaultVPCAndSubnet api = .error "no default VPC found"
    ∧ createInstance api instanceType
      = (.error "no default VPC found", false) := by
  have hvpc : getDefaultVPCAndSubnet api = .error "no default VPC found" := by
    unfold getDefaultVPCAndSubnet
    rw [h]
  refine ⟨hvpc, ?_⟩
  unfold createInstance
  rw [hvpc]

theorem C7_no_default_vpc_witness :
    createInstance
      ⟨.ok [], fun _ => .ok [], ⟨[], "sg-0"⟩, fun _ _ => .ok [],
        fun _ => .ok "i-0", .ok (), fun _ => .error "x", "us-east-1", 0⟩
      "t3.micro"
      = (.error "no default VPC found", false) :=
  (C7_no_default_vpc
    ⟨.ok [], fun _ => .ok [], ⟨[], "sg-0"⟩, fun _ _ => .ok [],
      fun _ => .ok "i-0", .ok (), fun _ => .error "x", "us-east-1", 0⟩
    "t3.micro" rfl).2

/-- C9: the list operation never includes a terminated instance, and every
instance of the response in any other state is included (converted in place).
-/
theorem C9_list_skips_terminated (reservations : List Reservation) :
    (∀ c ∈ listCloudleyInstances reservations, c.state ≠ "terminated")
    ∧ (∀ r ∈ reservations, ∀ inst ∈ r.instances,
        inst.stateName ≠ "terminated" →
        toClouddleyInstance inst ∈ listCloudleyInstances reservations) := by
  constructor
  · intro c hc
    simp only [listCloudleyInstances, List.mem_flatMap, List.mem_filterMap]
      at hc
    obtain ⟨r, hr, inst, hinst, hconv⟩ := hc
    by_cases h : inst.stateName = "terminated"
    · simp [h] at hconv
    · simp only [h, if_neg, beq_iff_eq, if_false] at hconv
      rw [← Option.some_inj.mp hconv]
      simpa [toClouddleyInstance] using h
  · intro r hr inst hinst h
    simp only [listCloudleyInstances, List.mem_flatMap, List.mem_filterMap]
    exact ⟨r, hr, inst, hinst, by simp [h]⟩

theorem C9_list_skips_terminated_witness :
    toClouddleyInstance ⟨"i-1", "running", "t3.micro", [], none, none⟩
      ∈ listCloudleyInstances
          [⟨[⟨"i-1", "running", "t3.micro", [], none, none⟩,
             ⟨"i-2", "terminated", "t3.micro", [], none, none⟩]⟩] :=
  (C9_list_skips_terminated
    [⟨[⟨"i-1", "running", "t3.micro", [], none, none⟩,
       ⟨"i-2", "terminated", "t3.micro", [], none, none⟩]⟩]).2
    _ (List.mem_cons_self _ _)
    _ (List.mem_cons_self _ _) (by decide)

end Clouddley
